import Mathlib

/-!
Verification of the YOLOv2 detection decoding pipeline of this repository
(model/YOLOv2.py and process_lisa.py) against its natural-language
specification.  The decoding stages of YOLOv2.predict are embedded as
Lean functions: geometry decode, mode-0 class score resolution, score
thresholding (tf.boolean_mask), coordinate rescaling, and greedy
non-maximum suppression (tf.image.non_max_suppression).  Machine floats
are modelled by elements of a linear ordered field (rationals for
concrete evaluation, reals where the source applies exp and sigmoid).
-/

namespace Yolo

/-- Axis-aligned box in the internal coordinate order of the source:
fields appear in the order y1, x1, y2, x2, matching the concatenation
boxes = [box_mins y, box_mins x, box_maxes y, box_maxes x]
in YOLOv2.predict. -/
structure Box (α : Type) where
  y1 : α
  x1 : α
  y2 : α
  x2 : α
deriving DecidableEq

instance {α : Type} [Zero α] : Inhabited (Box α) := ⟨⟨0, 0, 0, 0⟩⟩

/-- Index of the maximum entry, first occurrence wins,
modelling K.argmax over the last axis (0 on the empty list). -/
def argmaxIdx {α : Type} [LinearOrder α] : List α → ℕ
  | [] => 0
  | x :: xs =>
    let j := argmaxIdx xs
    if x < xs.getD j x then j + 1 else 0

/-- Maximum entry, modelling K.max over the last axis (0 on the empty list). -/
def maxScore {α : Type} [LinearOrder α] [Zero α] : List α → α
  | [] => 0
  | [x] => x
  | x :: y :: t => max x (maxScore (y :: t))

/-- Pointwise comparison mask, modelling
prediction_mask = (box_class_scores >= score_threshold). -/
def maskOf {α : Type} [LinearOrder α] (scores : List α) (t : α) : List Bool :=
  scores.map fun s => decide (t ≤ s)

/-- tf.boolean_mask on a flat list: keep the entries whose mask bit is true. -/
def booleanMask {β : Type} : List β → List Bool → List β
  | [], _ => []
  | _ :: _, [] => []
  | x :: xs, b :: bs => if b then x :: booleanMask xs bs else booleanMask xs bs

/-- Coordinate rescaling, modelling boxes * image_dims with
image_dims = [height, width, height, width] acting on (y1, x1, y2, x2). -/
def rescaleBox {α : Type} [Mul α] (h w : α) (b : Box α) : Box α :=
  ⟨b.y1 * h, b.x1 * w, b.y2 * h, b.x2 * w⟩

/-- Intersection over union of two boxes, the overlap measure used by
tf.image.non_max_suppression: clipped intersection area divided by the
union area. -/
def iou {α : Type} [LinearOrderedField α] (a b : Box α) : α :=
  (max 0 (min a.x2 b.x2 - max a.x1 b.x1) * max 0 (min a.y2 b.y2 - max a.y1 b.y1)) /
    ((a.x2 - a.x1) * (a.y2 - a.y1) + (b.x2 - b.x1) * (b.y2 - b.y1) -
      max 0 (min a.x2 b.x2 - max a.x1 b.x1) * max 0 (min a.y2 b.y2 - max a.y1 b.y1))

/-- Greedy suppression loop over score-sorted candidates
(original index, box, score): emit the best remaining candidate, drop the
remaining candidates whose IoU with it exceeds the threshold, and stop
once the cap many detections have been emitted. -/
def nmsLoop {α : Type} [LinearOrderedField α] (t : α) :
    ℕ → List (ℕ × Box α × α) → List (ℕ × Box α × α)
  | 0, _ => []
  | _ + 1, [] => []
  | cap + 1, c :: rest =>
    c :: nmsLoop t cap (rest.filter fun d => decide (iou c.2.1 d.2.1 ≤ t))

/-- tf.image.non_max_suppression: candidates are sorted by descending
score (stable, so score ties break by lower original index) and greedily
suppressed.  Returns the selected (index, box, score) triples; the source
gathers boxes, scores and classes by the returned indices. -/
def nmsSelect {α : Type} [LinearOrderedField α] (boxes : List (Box α)) (scores : List α)
    (cap : ℕ) (t : α) : List (ℕ × Box α × α) :=
  nmsLoop t cap (((boxes.zip scores).enum).insertionSort fun a b => b.2.2 ≤ a.2.2)

/-- Mode-0 class score resolution of YOLOv2.predict: box_scores =
box_confidence (the class logits slice is never read in mode 0), then
box_classes = K.argmax, box_class_scores = K.max, and after evaluation
classes_prediction -= 1.  Input is the already squashed objectness and
the raw class logits. -/
def mode0Resolve {α : Type} [LinearOrderedField α] (objectness : α) (_logits : List α) :
    ℤ × α :=
  let boxScores : List α := [objectness]
  ((argmaxIdx boxScores : ℤ) - 1, maxScore boxScores)

/-- Logistic squashing function, as defined at module level in the source
and applied by K.sigmoid. -/
noncomputable def sigmoid (x : ℝ) : ℝ := 1 / (1 + Real.exp (-x))

/-- One cell-anchor slice of the raw prediction tensor, the last-axis
layout [tx, ty, tw, th, objectness, class logits]. -/
structure RawCell where
  tx : ℝ
  ty : ℝ
  tw : ℝ
  th : ℝ
  tobj : ℝ
  logits : List ℝ

/-- The all-zero raw prediction cell carrying the given class logits slice. -/
def zeroCell (L : List ℝ) : RawCell := ⟨0, 0, 0, 0, 0, L⟩

/-- Geometry and anchor transform of YOLOv2.predict: box_xy =
(sigmoid of (tx, ty) + cell coordinates (j, i)) / netout_size (W, H),
box_wh = exp of (tw, th) * anchor / netout_size, box corners = center
minus and plus half extent, concatenated in the order (y1, x1, y2, x2). -/
noncomputable def decodeBox (anchors : List (ℝ × ℝ)) (W H : ℕ) (i j k : ℕ)
    (p : RawCell) : Box ℝ :=
  let bx := (sigmoid p.tx + (j : ℝ)) / (W : ℝ)
  let bcy := (sigmoid p.ty + (i : ℝ)) / (H : ℝ)
  let a := anchors.getD k (0, 0)
  let bw := Real.exp p.tw * a.1 / (W : ℝ)
  let bh := Real.exp p.th * a.2 / (H : ℝ)
  ⟨bcy - bh / 2, bx - bw / 2, bcy + bh / 2, bx + bw / 2⟩

/-- Modelled from the spec: the Geometry and Anchor Transform contract,
for the anchor with width aw and height ah.  Center =
((sigmoid tx + j) / W, (sigmoid ty + i) / H), extent =
(exp tw * aw / W, exp th * ah / H), corners = center minus and plus half
extent, internal coordinate order (y1, x1, y2, x2). -/
noncomputable def specDecodedBox (aw ah : ℝ) (W H i j : ℕ) (p : RawCell) : Box ℝ :=
  let cx := (sigmoid p.tx + (j : ℝ)) / (W : ℝ)
  let cy := (sigmoid p.ty + (i : ℝ)) / (H : ℝ)
  let ew := Real.exp p.tw * aw / (W : ℝ)
  let eh := Real.exp p.th * ah / (H : ℝ)
  ⟨cy - eh / 2, cx - ew / 2, cy + eh / 2, cx + ew / 2⟩

/-- Flattened (cell row, cell column, anchor) index triples in the
row-major order in which tf.boolean_mask flattens the [1, H, W, A]
tensors of YOLOv2.predict. -/
def cellsOf (H W A : ℕ) : List (ℕ × ℕ × ℕ) :=
  (List.range H).flatMap fun i =>
    (List.range W).flatMap fun j =>
      (List.range A).map fun k => (i, j, k)

/-- All decoded boxes of the prediction tensor, flattened row-major. -/
noncomputable def decodedBoxesMode0 (anchors : List (ℝ × ℝ)) (H W A : ℕ)
    (pred : ℕ → ℕ → ℕ → RawCell) : List (Box ℝ) :=
  (cellsOf H W A).map fun c => decodeBox anchors W H c.1 c.2.1 c.2.2 (pred c.1 c.2.1 c.2.2)

/-- box_class_scores in mode 0: K.max over box_scores, where box_scores
is the single-entry box_confidence vector. -/
noncomputable def classScoresMode0 (H W A : ℕ) (pred : ℕ → ℕ → ℕ → RawCell) : List ℝ :=
  (cellsOf H W A).map fun c => maxScore [sigmoid (pred c.1 c.2.1 c.2.2).tobj]

/-- box_classes in mode 0: K.argmax over box_scores, where box_scores is
the single-entry box_confidence vector. -/
noncomputable def classIdxsMode0 (H W A : ℕ) (pred : ℕ → ℕ → ℕ → RawCell) : List ℕ :=
  (cellsOf H W A).map fun c => argmaxIdx [sigmoid (pred c.1 c.2.1 c.2.2).tobj]

/-- prediction_mask = (box_class_scores >= score_threshold). -/
noncomputable def predMaskMode0 (H W A : ℕ) (pred : ℕ → ℕ → ℕ → RawCell) (scoreThr : ℝ) :
    List Bool :=
  maskOf (classScoresMode0 H W A pred) scoreThr

/-- boxes = tf.boolean_mask(boxes, prediction_mask): filtered candidate
boxes, still in normalized coordinates. -/
noncomputable def filteredBoxesMode0 (anchors : List (ℝ × ℝ)) (H W A : ℕ)
    (pred : ℕ → ℕ → ℕ → RawCell) (scoreThr : ℝ) : List (Box ℝ) :=
  booleanMask (decodedBoxesMode0 anchors H W A pred) (predMaskMode0 H W A pred scoreThr)

/-- scores = tf.boolean_mask(box_class_scores, prediction_mask). -/
noncomputable def filteredScoresMode0 (H W A : ℕ) (pred : ℕ → ℕ → ℕ → RawCell)
    (scoreThr : ℝ) : List ℝ :=
  booleanMask (classScoresMode0 H W A pred) (predMaskMode0 H W A pred scoreThr)

/-- classes = tf.boolean_mask(box_classes, prediction_mask). -/
noncomputable def filteredClassesMode0 (H W A : ℕ) (pred : ℕ → ℕ → ℕ → RawCell)
    (scoreThr : ℝ) : List ℕ :=
  booleanMask (classIdxsMode0 H W A pred) (predMaskMode0 H W A pred scoreThr)

/-- boxes = boxes * image_dims: the boxes the source hands to
tf.image.non_max_suppression, already rescaled to image-pixel space. -/
noncomputable def nmsInputBoxesMode0 (anchors : List (ℝ × ℝ)) (H W A : ℕ)
    (pred : ℕ → ℕ → ℕ → RawCell) (scoreThr : ℝ) (imgH imgW : ℕ) : List (Box ℝ) :=
  (filteredBoxesMode0 anchors H W A pred scoreThr).map (rescaleBox (imgH : ℝ) (imgW : ℝ))

/-- Embedding of the post-network part of YOLOv2.predict in mode 0:
decode geometry, resolve mode-0 scores and classes, threshold with
tf.boolean_mask, rescale by image_dims = [height, width, height, width],
run tf.image.non_max_suppression with the hard-coded cap tf.Variable(10),
gather the survivors, and finally apply classes_prediction -= 1.
Returns (boxes, scores, classes). -/
noncomputable def predictMode0 (anchors : List (ℝ × ℝ)) (H W A : ℕ)
    (pred : ℕ → ℕ → ℕ → RawCell) (imgH imgW : ℕ) (iouThr scoreThr : ℝ) :
    List (Box ℝ) × List ℝ × List ℤ :=
  let cells := cellsOf H W A
  let boxesAll := cells.map fun c => decodeBox anchors W H c.1 c.2.1 c.2.2 (pred c.1 c.2.1 c.2.2)
  let scoresAll := cells.map fun c => maxScore [sigmoid (pred c.1 c.2.1 c.2.2).tobj]
  let classesAll := cells.map fun c => argmaxIdx [sigmoid (pred c.1 c.2.1 c.2.2).tobj]
  let mask := maskOf scoresAll scoreThr
  let boxes1 := booleanMask boxesAll mask
  let scores1 := booleanMask scoresAll mask
  let classes1 := booleanMask classesAll mask
  let boxes2 := boxes1.map (rescaleBox (imgH : ℝ) (imgW : ℝ))
  let sel := nmsSelect boxes2 scores1 10 iouThr
  (sel.map fun s => boxes2.getD s.1 default,
   sel.map fun s => scores1.getD s.1 0,
   sel.map fun s => ((classes1.getD s.1 0 : ℕ) : ℤ) - 1)

/-- Error outcomes of load_lisa_data in process_lisa.py. -/
inductive LisaError where
  | valueError : String → LisaError
  | ioError : String → LisaError
deriving DecidableEq

/-- Abstract filesystem and CSV environment consumed by load_lisa_data:
os.path.isdir, glob.glob, and pandas.read_csv (the frame contents are
irrelevant to the control flow and stay an abstract type). -/
structure LisaEnv (Frame : Type) where
  isdir : String → Bool
  globCsv : String → List String
  readCsv : String → Frame

/-- Embedding of load_lisa_data (process_lisa.py): a None path raises
ValueError, a path that is not an existing directory raises IOError,
otherwise every CSV file matching path + "*.csv" is read.  The second
component records which CSV files were read, so that the error branches
returning the empty read list witness that they fire before any CSV is
read.  The pandas concatenation of the frames is abstracted to the list
of frames read. -/
def load_lisa_data {Frame : Type} (env : LisaEnv Frame) (path : Option String) :
    Except LisaError (List Frame) × List String :=
  match path with
  | none => (Except.error (LisaError.valueError "Please setup correct path to to data set"), [])
  | some p =>
    if env.isdir p = false then
      (Except.error (LisaError.ioError "Path does not exist"), [])
    else
      let csvFiles := env.globCsv (p ++ "*.csv")
      (Except.ok (csvFiles.map env.readCsv), csvFiles)

/-! Helper lemmas. -/

/-- The sigmoid of zero is one half. -/
theorem sigmoid_zero : sigmoid 0 = 1 / 2 := by
  simp [sigmoid]
  norm_num

/-- Intersection over union is symmetric. -/
theorem iou_comm {α : Type} [LinearOrderedField α] (a b : Box α) : iou a b = iou b a := by
  unfold iou
  rw [min_comm b.x2 a.x2, max_comm b.x1 a.x1, min_comm b.y2 a.y2, max_comm b.y1 a.y1,
    add_comm ((b.x2 - b.x1) * (b.y2 - b.y1)) ((a.x2 - a.x1) * (a.y2 - a.y1))]

/-- The suppression loop on the empty candidate list emits nothing. -/
theorem nmsLoop_nil {α : Type} [LinearOrderedField α] (t : α) (cap : ℕ) :
    nmsLoop t cap ([] : List (ℕ × Box α × α)) = [] := by
  cases cap <;> rfl

/-- Every candidate emitted by the suppression loop comes from its input. -/
theorem nmsLoop_subset {α : Type} [LinearOrderedField α] (t : α) (cap : ℕ) :
    ∀ (l : List (ℕ × Box α × α)) (x : ℕ × Box α × α), x ∈ nmsLoop t cap l → x ∈ l := by
  induction cap with
  | zero => intro l x hx; simp [nmsLoop] at hx
  | succ cap ih =>
    intro l x hx
    cases l with
    | nil => simp [nmsLoop] at hx
    | cons c rest =>
      simp only [nmsLoop, List.mem_cons] at hx
      rcases hx with rfl | hx
      · exact List.mem_cons_self _ _
      · exact List.mem_cons_of_mem _ (List.mem_of_mem_filter (ih _ _ hx))

/-- Any two distinct candidates emitted by the suppression loop overlap
by at most the IoU threshold. -/
theorem nmsLoop_mem_iou {α : Type} [LinearOrderedField α] (t : α) (cap : ℕ) :
    ∀ (l : List (ℕ × Box α × α)) (p q : ℕ × Box α × α),
      p ∈ nmsLoop t cap l → q ∈ nmsLoop t cap l → p ≠ q → iou p.2.1 q.2.1 ≤ t := by
  induction cap with
  | zero => intro l p q hp _ _; simp [nmsLoop] at hp
  | succ cap ih =>
    intro l p q hp hq hne
    cases l with
    | nil => simp [nmsLoop] at hp
    | cons c rest =>
      simp only [nmsLoop, List.mem_cons] at hp hq
      rcases hp with rfl | hp <;> rcases hq with rfl | hq
      · exact absurd rfl hne
      · have hmem := nmsLoop_subset t cap _ q hq
        have := List.of_mem_filter hmem
        simpa using this
      · have hmem := nmsLoop_subset t cap _ p hp
        have := List.of_mem_filter hmem
        rw [iou_comm]
        simpa using this
      · exact ih _ p q hp hq hne

/-- The suppression loop emits at most cap candidates and at most as
many as it is given. -/
theorem nmsLoop_length_le {α : Type} [LinearOrderedField α] (t : α) (cap : ℕ) :
    ∀ l : List (ℕ × Box α × α),
      (nmsLoop t cap l).length ≤ cap ∧ (nmsLoop t cap l).length ≤ l.length := by
  induction cap with
  | zero => intro l; simp [nmsLoop]
  | succ cap ih =>
    intro l
    cases l with
    | nil => simp [nmsLoop]
    | cons c rest =>
      simp only [nmsLoop, List.length_cons]
      exact ⟨Nat.succ_le_succ (ih _).1,
        Nat.succ_le_succ (le_trans (ih _).2 (List.length_filter_le _ _))⟩

/-- Non-maximum suppression of a single candidate with a positive cap
keeps exactly that candidate. -/
theorem nmsSelect_singleton {α : Type} [LinearOrderedField α] (b : Box α) (s t : α)
    (cap : ℕ) : nmsSelect [b] [s] (cap + 1) t = [(0, b, s)] := by
  simp [nmsSelect, List.insertionSort, nmsLoop, nmsLoop_nil]

/-- The pipeline is, definitionally, the NMS engine applied to the
rescaled filtered boxes and the filtered scores, with a cap of 10,
followed by gathering and the mode-0 class adjustment. -/
theorem predictMode0_unfold (anchors : List (ℝ × ℝ)) (H W A : ℕ)
    (pred : ℕ → ℕ → ℕ → RawCell) (imgH imgW : ℕ) (iouThr scoreThr : ℝ) :
    predictMode0 anchors H W A pred imgH imgW iouThr scoreThr
      = ((nmsSelect (nmsInputBoxesMode0 anchors H W A pred scoreThr imgH imgW)
            (filteredScoresMode0 H W A pred scoreThr) 10 iouThr).map
            fun s => (nmsInputBoxesMode0 anchors H W A pred scoreThr imgH imgW).getD s.1 default,
         (nmsSelect (nmsInputBoxesMode0 anchors H W A pred scoreThr imgH imgW)
            (filteredScoresMode0 H W A pred scoreThr) 10 iouThr).map
            fun s => (filteredScoresMode0 H W A pred scoreThr).getD s.1 0,
         (nmsSelect (nmsInputBoxesMode0 anchors H W A pred scoreThr imgH imgW)
            (filteredScoresMode0 H W A pred scoreThr) 10 iouThr).map
            fun s => (((filteredClassesMode0 H W A pred scoreThr).getD s.1 0 : ℕ) : ℤ) - 1) :=
  rfl

/-- The single-cell, single-anchor index list. -/
theorem cellsOf_one : cellsOf 1 1 1 = [(0, 0, 0)] := rfl

/-- Decoded box of the all-zero slice on a 1 by 1 grid: center (1/2, 1/2)
and the extent of anchor 0 (or zero extent when the anchor list is empty). -/
theorem decodeBox_allzero (anchors : List (ℝ × ℝ)) (L : List ℝ) :
    decodeBox anchors 1 1 0 0 0 (zeroCell L)
      = ⟨1 / 2 - (anchors.getD 0 (0, 0)).2 / 2, 1 / 2 - (anchors.getD 0 (0, 0)).1 / 2,
         1 / 2 + (anchors.getD 0 (0, 0)).2 / 2, 1 / 2 + (anchors.getD 0 (0, 0)).1 / 2⟩ := by
  simp [decodeBox, zeroCell, sigmoid_zero, Real.exp_zero]

/-- Mode-0 class scores of the all-zero single-cell tensor. -/
theorem classScores_allzero (L : List ℝ) :
    classScoresMode0 1 1 1 (fun _ _ _ => zeroCell L) = [1 / 2] := by
  simp [classScoresMode0, cellsOf_one, maxScore, zeroCell, sigmoid_zero]

/-- Mode-0 class indices of the all-zero single-cell tensor. -/
theorem classIdxs_allzero (L : List ℝ) :
    classIdxsMode0 1 1 1 (fun _ _ _ => zeroCell L) = [0] := by
  simp [classIdxsMode0, cellsOf_one, argmaxIdx, zeroCell]

/-- With threshold one half, the all-zero tensor's single candidate
passes the filter: its score is exactly one half and the comparison is
score at least threshold. -/
theorem predMask_allzero (L : List ℝ) :
    predMaskMode0 1 1 1 (fun _ _ _ => zeroCell L) (1 / 2) = [true] := by
  rw [predMaskMode0, classScores_allzero]
  simp [maskOf]

/-- Filtered boxes of the all-zero single-cell tensor at threshold 1/2. -/
theorem filteredBoxes_allzero (anchors : List (ℝ × ℝ)) (L : List ℝ) :
    filteredBoxesMode0 anchors 1 1 1 (fun _ _ _ => zeroCell L) (1 / 2)
      = [decodeBox anchors 1 1 0 0 0 (zeroCell L)] := by
  rw [filteredBoxesMode0, predMask_allzero]
  simp [decodedBoxesMode0, cellsOf_one, booleanMask]

/-- Filtered scores of the all-zero single-cell tensor at threshold 1/2. -/
theorem filteredScores_allzero (L : List ℝ) :
    filteredScoresMode0 1 1 1 (fun _ _ _ => zeroCell L) (1 / 2) = [1 / 2] := by
  rw [filteredScoresMode0, predMask_allzero, classScores_allzero]
  simp [booleanMask]

/-- Filtered class indices of the all-zero single-cell tensor at
threshold 1/2. -/
theorem filteredClasses_allzero (L : List ℝ) :
    filteredClassesMode0 1 1 1 (fun _ _ _ => zeroCell L) (1 / 2) = [0] := by
  rw [filteredClassesMode0, predMask_allzero, classIdxs_allzero]
  simp [booleanMask]

/-- Boxes handed to NMS for the all-zero single-cell tensor: the decoded
box already rescaled by the image dimensions. -/
theorem nmsInput_allzero (anchors : List (ℝ × ℝ)) (L : List ℝ) (imgH imgW : ℕ) :
    nmsInputBoxesMode0 anchors 1 1 1 (fun _ _ _ => zeroCell L) (1 / 2) imgH imgW
      = [rescaleBox (imgH : ℝ) (imgW : ℝ) (decodeBox anchors 1 1 0 0 0 (zeroCell L))] := by
  rw [nmsInputBoxesMode0, filteredBoxes_allzero]
  rfl

/-- Full pipeline evaluation on the all-zero single-cell tensor with
score threshold one half: one detection survives, with score one half
and mode-0-adjusted class -1. -/
theorem predictMode0_allzero_eval (anchors : List (ℝ × ℝ)) (L : List ℝ) (imgH imgW : ℕ)
    (iouThr : ℝ) :
    predictMode0 anchors 1 1 1 (fun _ _ _ => zeroCell L) imgH imgW iouThr (1 / 2)
      = ([rescaleBox (imgH : ℝ) (imgW : ℝ) (decodeBox anchors 1 1 0 0 0 (zeroCell L))],
         [1 / 2], [-1]) := by
  rw [predictMode0_unfold, nmsInput_allzero, filteredScores_allzero, filteredClasses_allzero,
    show (10 : ℕ) = 9 + 1 from rfl, nmsSelect_singleton]
  simp

/-! Claim theorems. -/

/-- C1 counterexample: with objectness 0.9 and class logits
[2.0, 1.0, 0.1], the mode-0 resolver returns class id -1, not the
claimed best class 0 (the product with the softmax of the logits is never
formed: the logits are ignored). -/
theorem mode0_resolver_claim_false :
    (mode0Resolve ((9 : ℚ) / 10) [2, 1, 1 / 10]).1 ≠ 0 := by
  simp [mode0Resolve, argmaxIdx]

/-- C1 amended: in flat (mode 0) class scoring the class logits are
ignored; the score vector is the singleton [objectness], the best class
is the argmax 0 of that singleton, which the mode-0 adjustment decrements
to the returned class id -1, and the best score equals the objectness.
In particular with objectness 0.9 and logits [2.0, 1.0, 0.1] the result
is class -1 with score 0.9. -/
theorem mode0_resolver_spec {α : Type} [LinearOrderedField α]
    (objectness : α) (logits : List α) :
    mode0Resolve objectness logits = (-1, objectness) ∧
    mode0Resolve ((9 : ℚ) / 10) [2, 1, 1 / 10] = (-1, 9 / 10) := by
  constructor
  · simp [mode0Resolve, argmaxIdx, maxScore]
  · simp [mode0Resolve, argmaxIdx, maxScore]

/-- C9: coordinate rescaling multiplies the x coordinates by the image
width and the y coordinates by the image height; in particular the
normalized box (x1, y1, x2, y2) = (0.5, 0.5, 0.6, 0.6), stored internally
as (y1, x1, y2, x2), with image height 200 and width 100 rescales to
x1 = 50, y1 = 100, x2 = 60, y2 = 120. -/
theorem rescale_uses_matching_dims {α : Type} [Mul α] (h w : α) (b : Box α) :
    (rescaleBox h w b).x1 = b.x1 * w ∧ (rescaleBox h w b).x2 = b.x2 * w ∧
    (rescaleBox h w b).y1 = b.y1 * h ∧ (rescaleBox h w b).y2 = b.y2 * h ∧
    rescaleBox (200 : ℚ) 100 ⟨1 / 2, 1 / 2, 3 / 5, 3 / 5⟩ = ⟨100, 50, 120, 60⟩ := by
  refine ⟨rfl, rfl, rfl, rfl, ?_⟩
  simp only [rescaleBox, Box.mk.injEq]
  norm_num

/-- Masking a list of scores by its own threshold mask is exactly the
order-preserving filter keeping the scores at least the threshold. -/
theorem booleanMask_maskOf {α : Type} [LinearOrder α] (s : List α) (t : α) :
    booleanMask s (maskOf s t) = s.filter fun x => decide (t ≤ x) := by
  induction s with
  | nil => rfl
  | cons x xs ih =>
    by_cases h : t ≤ x <;> simp [maskOf, booleanMask, h, List.filter_cons] at * <;>
      simpa [maskOf] using ih

/-- Applying the same mask to two aligned lists keeps them aligned:
masking the zip is the zip of the maskings. -/
theorem booleanMask_zip {β γ : Type} (xs : List β) (ys : List γ) (m : List Bool)
    (h : xs.length = ys.length) :
    booleanMask (xs.zip ys) m = (booleanMask xs m).zip (booleanMask ys m) := by
  induction m generalizing xs ys with
  | nil => cases xs <;> cases ys <;> simp [booleanMask]
  | cons b bs ih =>
    cases xs with
    | nil => cases ys <;> simp [booleanMask]
    | cons x xs =>
      cases ys with
      | nil => simp at h
      | cons y ys =>
        simp only [List.length_cons, Nat.succ_inj] at h
        have hih := ih xs ys h
        by_cases hb : b = true <;>
          simp only [booleanMask, hb, List.zip_cons_cons, if_true, if_false,
            Bool.false_eq_true, List.zip] at hih ⊢ <;>
          simp [hih]

/-- A mask that is true everywhere keeps everything (when it is at least
as long as the list). -/
theorem booleanMask_all_true {β : Type} (xs : List β) (m : List Bool)
    (hlen : xs.length ≤ m.length) (h : ∀ b ∈ m, b = true) :
    booleanMask xs m = xs := by
  induction xs generalizing m with
  | nil => cases m <;> rfl
  | cons x xs ih =>
    cases m with
    | nil => simp at hlen
    | cons b bs =>
      have hb : b = true := h b (List.mem_cons_self b bs)
      simp only [List.length_cons, Nat.succ_le_succ_iff] at hlen
      simp [booleanMask, hb, ih bs hlen fun c hc => h c (List.mem_cons_of_mem b hc)]

/-- Masking two aligned lists with the same mask keeps their lengths equal. -/
theorem booleanMask_length_eq {β γ : Type} (xs : List β) (ys : List γ) (m : List Bool)
    (h : xs.length = ys.length) :
    (booleanMask xs m).length = (booleanMask ys m).length := by
  induction m generalizing xs ys with
  | nil => cases xs <;> cases ys <;> simp_all [booleanMask]
  | cons b bs ih =>
    cases xs with
    | nil => cases ys <;> simp_all [booleanMask]
    | cons x xs =>
      cases ys with
      | nil => simp at h
      | cons y ys =>
        simp only [List.length_cons, Nat.succ_inj] at h
        by_cases hb : b = true <;> simp [booleanMask, hb, ih xs ys h]

/-- C7: the detection filter retains exactly the candidates scoring at
least the threshold (stated on the score list: the mask built from the
scores keeps precisely the scores at least tau, in order); it preserves
index correspondence (masking the zipped pair list equals zipping the two
masked lists); and it is idempotent: masking an already masked box list
and score list again, with the mask rebuilt from the masked scores at the
same threshold, returns them unchanged. -/
theorem detection_filter_spec {α β : Type} [LinearOrder α] (B : List β) (S : List α)
    (t : α) (hlen : B.length = S.length) :
    booleanMask S (maskOf S t) = (S.filter fun x => decide (t ≤ x)) ∧
    booleanMask (B.zip S) (maskOf S t)
      = (booleanMask B (maskOf S t)).zip (booleanMask S (maskOf S t)) ∧
    booleanMask (booleanMask B (maskOf S t)) (maskOf (booleanMask S (maskOf S t)) t)
      = booleanMask B (maskOf S t) ∧
    booleanMask (booleanMask S (maskOf S t)) (maskOf (booleanMask S (maskOf S t)) t)
      = booleanMask S (maskOf S t) := by
  have hallS : ∀ x ∈ booleanMask S (maskOf S t), t ≤ x := by
    intro x hx
    rw [booleanMask_maskOf] at hx
    simpa using (List.mem_filter.mp hx).2
  have halltrue : ∀ b ∈ maskOf (booleanMask S (maskOf S t)) t, b = true := by
    intro b hb
    simp only [maskOf, List.mem_map] at hb
    obtain ⟨x, hx, rfl⟩ := hb
    simpa using hallS x hx
  have hlen2 : (booleanMask B (maskOf S t)).length = (booleanMask S (maskOf S t)).length :=
    booleanMask_length_eq B S (maskOf S t) hlen
  have hmlen : (maskOf (booleanMask S (maskOf S t)) t).length
      = (booleanMask S (maskOf S t)).length := by
    simp [maskOf]
  refine ⟨booleanMask_maskOf S t, booleanMask_zip B S (maskOf S t) hlen, ?_, ?_⟩
  · exact booleanMask_all_true _ _ (by rw [hmlen, ← hlen2]) halltrue
  · exact booleanMask_all_true _ _ (by rw [hmlen]) halltrue

/-- Witness for C7 at a concrete box list and score list. -/
theorem detection_filter_spec_witness :
    ([(7 : ℤ), 8].length = [(1 : ℚ), 0].length) ∧
    (booleanMask [(1 : ℚ), 0] (maskOf [(1 : ℚ), 0] (1 / 2))
        = ([(1 : ℚ), 0].filter fun x => decide ((1 : ℚ) / 2 ≤ x)) ∧
      booleanMask ([(7 : ℤ), 8].zip [(1 : ℚ), 0]) (maskOf [(1 : ℚ), 0] (1 / 2))
        = (booleanMask [(7 : ℤ), 8] (maskOf [(1 : ℚ), 0] (1 / 2))).zip
            (booleanMask [(1 : ℚ), 0] (maskOf [(1 : ℚ), 0] (1 / 2))) ∧
      booleanMask (booleanMask [(7 : ℤ), 8] (maskOf [(1 : ℚ), 0] (1 / 2)))
          (maskOf (booleanMask [(1 : ℚ), 0] (maskOf [(1 : ℚ), 0] (1 / 2))) (1 / 2))
        = booleanMask [(7 : ℤ), 8] (maskOf [(1 : ℚ), 0] (1 / 2)) ∧
      booleanMask (booleanMask [(1 : ℚ), 0] (maskOf [(1 : ℚ), 0] (1 / 2)))
          (maskOf (booleanMask [(1 : ℚ), 0] (maskOf [(1 : ℚ), 0] (1 / 2))) (1 / 2))
        = booleanMask [(1 : ℚ), 0] (maskOf [(1 : ℚ), 0] (1 / 2))) :=
  ⟨rfl, detection_filter_spec [(7 : ℤ), 8] [(1 : ℚ), 0] (1 / 2) rfl⟩

/-- C4: after non-maximum suppression with IoU threshold t, any two
distinct surviving candidates overlap with intersection over union at
most t. -/
theorem nms_survivors_iou_le {α : Type} [LinearOrderedField α]
    (boxes : List (Box α)) (scores : List α) (cap : ℕ) (t : α)
    (p q : ℕ × Box α × α)
    (hp : p ∈ nmsSelect boxes scores cap t) (hq : q ∈ nmsSelect boxes scores cap t)
    (hne : p ≠ q) : iou p.2.1 q.2.1 ≤ t :=
  nmsLoop_mem_iou t cap _ p q hp hq hne

/-- Concrete NMS run on two disjoint boxes: both survive. -/
theorem nmsSelect_pair_eval :
    nmsSelect [Box.mk (0 : ℚ) 0 1 1, Box.mk (0 : ℚ) 10 1 11] [2, 1] 10 (1 / 2)
      = [(0, Box.mk (0 : ℚ) 0 1 1, 2), (1, Box.mk (0 : ℚ) 10 1 11, 1)] := by
  have hiou : iou (Box.mk (0 : ℚ) 0 1 1) (Box.mk (0 : ℚ) 10 1 11) = 0 := by
    norm_num [iou, min_def, max_def]
  have hsorted :
      (([Box.mk (0 : ℚ) 0 1 1, Box.mk (0 : ℚ) 10 1 11].zip [(2 : ℚ), 1]).enum).insertionSort
          (fun a b => b.2.2 ≤ a.2.2)
        = [(0, Box.mk (0 : ℚ) 0 1 1, 2), (1, Box.mk (0 : ℚ) 10 1 11, 1)] := by
    norm_num [List.insertionSort, List.orderedInsert]
  rw [nmsSelect, hsorted, show (10 : ℕ) = 9 + 1 from rfl]
  simp only [nmsLoop]
  rw [show (9 : ℕ) = 8 + 1 from rfl]
  norm_num [hiou, List.filter_cons, nmsLoop, nmsLoop_nil]

/-- Witness for C4 on two disjoint concrete boxes that both survive NMS. -/
theorem nms_survivors_iou_le_witness :
    ((0, Box.mk (0 : ℚ) 0 1 1, (2 : ℚ))
        ∈ nmsSelect [Box.mk (0 : ℚ) 0 1 1, Box.mk (0 : ℚ) 10 1 11] [2, 1] 10 (1 / 2) ∧
      (1, Box.mk (0 : ℚ) 10 1 11, (1 : ℚ))
        ∈ nmsSelect [Box.mk (0 : ℚ) 0 1 1, Box.mk (0 : ℚ) 10 1 11] [2, 1] 10 (1 / 2) ∧
      ((0, Box.mk (0 : ℚ) 0 1 1, (2 : ℚ)) : ℕ × Box ℚ × ℚ)
        ≠ (1, Box.mk (0 : ℚ) 10 1 11, 1)) ∧
    iou (Box.mk (0 : ℚ) 0 1 1) (Box.mk (0 : ℚ) 10 1 11) ≤ 1 / 2 :=
  ⟨⟨by rw [nmsSelect_pair_eval]; simp,
    by rw [nmsSelect_pair_eval]; simp,
    by simp⟩,
   nms_survivors_iou_le [Box.mk (0 : ℚ) 0 1 1, Box.mk (0 : ℚ) 10 1 11] [2, 1] 10 (1 / 2)
     (0, Box.mk (0 : ℚ) 0 1 1, 2) (1, Box.mk (0 : ℚ) 10 1 11, 1)
     (by rw [nmsSelect_pair_eval]; simp)
     (by rw [nmsSelect_pair_eval]; simp)
     (by simp)⟩

/-- C10: load_lisa_data raises ValueError on a None path and IOError on a
path that is not an existing directory, in both cases before reading any
CSV file (empty read trace); on an existing directory it returns
successfully, so neither of those two errors is raised. -/
theorem load_lisa_data_error_spec {Frame : Type} (env : LisaEnv Frame) :
    load_lisa_data env none
      = (Except.error (LisaError.valueError "Please setup correct path to to data set"), []) ∧
    (∀ p, env.isdir p = false →
      load_lisa_data env (some p)
        = (Except.error (LisaError.ioError "Path does not exist"), [])) ∧
    (∀ p, env.isdir p = true →
      (load_lisa_data env (some p)).1
        = Except.ok ((env.globCsv (p ++ "*.csv")).map env.readCsv)) := by
  refine ⟨rfl, fun p hp => ?_, fun p hp => ?_⟩
  · simp [load_lisa_data, hp]
  · simp [load_lisa_data, hp]

/-- Witness for C10 on a concrete environment whose only directory is
the string d. -/
theorem load_lisa_data_error_spec_witness :
    ((LisaEnv.mk (fun s => decide (s = "d")) (fun _ => ["a.csv"]) (fun _ => (0 : ℕ))).isdir "x"
        = false ∧
      load_lisa_data (LisaEnv.mk (fun s => decide (s = "d")) (fun _ => ["a.csv"]) (fun _ => (0 : ℕ)))
          (some "x")
        = (Except.error (LisaError.ioError "Path does not exist"), [])) ∧
    ((LisaEnv.mk (fun s => decide (s = "d")) (fun _ => ["a.csv"]) (fun _ => (0 : ℕ))).isdir "d"
        = true ∧
      (load_lisa_data (LisaEnv.mk (fun s => decide (s = "d")) (fun _ => ["a.csv"]) (fun _ => (0 : ℕ)))
          (some "d")).1
        = Except.ok ((["a.csv"] : List String).map (fun _ => (0 : ℕ)))) :=
  ⟨⟨by decide,
    (load_lisa_data_error_spec
      (LisaEnv.mk (fun s => decide (s = "d")) (fun _ => ["a.csv"]) (fun _ => (0 : ℕ)))).2.1
      "x" (by decide)⟩,
   ⟨by decide,
    (load_lisa_data_error_spec
      (LisaEnv.mk (fun s => decide (s = "d")) (fun _ => ["a.csv"]) (fun _ => (0 : ℕ)))).2.2
      "d" (by decide)⟩⟩

/-- C5: for every grid cell (i, j) and anchor k, the decoded box agrees
with the specified geometry: center ((sigmoid tx + j) / W,
(sigmoid ty + i) / H), extent (exp tw, exp th) times the anchor width and
height over (W, H), corners center minus and plus half extent, in the
internal coordinate order (y1, x1, y2, x2). -/
theorem geometry_decode_spec (anchors : List (ℝ × ℝ)) (W H i j k : ℕ) (p : RawCell)
    (h : k < anchors.length) :
    decodeBox anchors W H i j k p
      = specDecodedBox (anchors.get ⟨k, h⟩).1 (anchors.get ⟨k, h⟩).2 W H i j p := by
  simp [decodeBox, specDecodedBox, List.getD_eq_getElem _ _ h,
    List.getElem?_eq_getElem h]

/-- Witness for C5 at a concrete anchor list, grid, cell and raw slice. -/
theorem geometry_decode_spec_witness :
    0 < [((2 : ℝ), 3)].length ∧
    decodeBox [((2 : ℝ), 3)] 4 5 1 2 0 (zeroCell [])
      = specDecodedBox 2 3 4 5 1 2 (zeroCell []) :=
  ⟨by norm_num,
   geometry_decode_spec [((2 : ℝ), 3)] 4 5 1 2 0 (zeroCell []) (by norm_num)⟩

/-- C8: every decoded box has x1 at most x2 and y1 at most y2, provided
every anchor has non-negative width and height, since the corners are the
center minus and plus half of a non-negative extent. -/
theorem decode_corners_ordered (anchors : List (ℝ × ℝ)) (W H i j k : ℕ) (p : RawCell)
    (ha : ∀ a ∈ anchors, 0 ≤ a.1 ∧ 0 ≤ a.2) :
    (decodeBox anchors W H i j k p).x1 ≤ (decodeBox anchors W H i j k p).x2 ∧
    (decodeBox anchors W H i j k p).y1 ≤ (decodeBox anchors W H i j k p).y2 := by
  have hanch : 0 ≤ (anchors.getD k (0, 0)).1 ∧ 0 ≤ (anchors.getD k (0, 0)).2 := by
    by_cases hk : k < anchors.length
    · rw [List.getD_eq_getElem _ _ hk]
      exact ha _ (List.getElem_mem hk)
    · rw [List.getD_eq_default _ _ (le_of_not_lt hk)]
      exact ⟨le_refl 0, le_refl 0⟩
  have hbw : 0 ≤ Real.exp p.tw * (anchors.getD k (0, 0)).1 / (W : ℝ) :=
    div_nonneg (mul_nonneg (Real.exp_pos _).le hanch.1) (Nat.cast_nonneg W)
  have hbh : 0 ≤ Real.exp p.th * (anchors.getD k (0, 0)).2 / (H : ℝ) :=
    div_nonneg (mul_nonneg (Real.exp_pos _).le hanch.2) (Nat.cast_nonneg H)
  constructor <;> simp only [decodeBox] <;> linarith

/-- Witness for C8 at a concrete non-negative anchor. -/
theorem decode_corners_ordered_witness :
    (∀ a ∈ [((1 : ℝ), 1)], 0 ≤ a.1 ∧ 0 ≤ a.2) ∧
    ((decodeBox [((1 : ℝ), 1)] 2 2 0 1 0 (zeroCell [])).x1
        ≤ (decodeBox [((1 : ℝ), 1)] 2 2 0 1 0 (zeroCell [])).x2 ∧
      (decodeBox [((1 : ℝ), 1)] 2 2 0 1 0 (zeroCell [])).y1
        ≤ (decodeBox [((1 : ℝ), 1)] 2 2 0 1 0 (zeroCell [])).y2) :=
  ⟨by norm_num,
   decode_corners_ordered [((1 : ℝ), 1)] 2 2 0 1 0 (zeroCell []) (by norm_num)⟩

/-- C6: the NMS engine emits at most as many detections as it receives
candidates and at most its maximum-detections cap; in the pipeline,
which calls it with the cap 10 supplied at the call site, the final
detection count is at most the number of filtered candidates and at
most 10. -/
theorem nms_output_bounds {α : Type} [LinearOrderedField α]
    (boxes : List (Box α)) (scores : List α) (cap : ℕ) (t : α)
    (anchors : List (ℝ × ℝ)) (H W A : ℕ) (pred : ℕ → ℕ → ℕ → RawCell)
    (imgH imgW : ℕ) (iouThr scoreThr : ℝ) :
    (nmsSelect boxes scores cap t).length ≤ (boxes.zip scores).length ∧
    (nmsSelect boxes scores cap t).length ≤ cap ∧
    (predictMode0 anchors H W A pred imgH imgW iouThr scoreThr).1.length
      ≤ (filteredBoxesMode0 anchors H W A pred scoreThr).length ∧
    (predictMode0 anchors H W A pred imgH imgW iouThr scoreThr).1.length ≤ 10 := by
  have hlen : ∀ (β : Type) [inst : LinearOrderedField β] (bx : List (Box β)) (sc : List β)
      (cp : ℕ) (th : β), (nmsSelect bx sc cp th).length ≤ (bx.zip sc).length ∧
        (nmsSelect bx sc cp th).length ≤ cp := by
    intro β inst bx sc cp th
    constructor
    · calc (nmsSelect bx sc cp th).length
          ≤ (((bx.zip sc).enum).insertionSort fun a b => b.2.2 ≤ a.2.2).length :=
            (nmsLoop_length_le th cp _).2
        _ = ((bx.zip sc).enum).length := List.length_insertionSort _ _
        _ = (bx.zip sc).length := List.enum_length
    · exact (nmsLoop_length_le th cp _).1
  refine ⟨(hlen α boxes scores cap t).1, (hlen α boxes scores cap t).2, ?_, ?_⟩
  · rw [predictMode0_unfold]
    simp only [List.length_map]
    calc (nmsSelect (nmsInputBoxesMode0 anchors H W A pred scoreThr imgH imgW)
            (filteredScoresMode0 H W A pred scoreThr) 10 iouThr).length
        ≤ ((nmsInputBoxesMode0 anchors H W A pred scoreThr imgH imgW).zip
            (filteredScoresMode0 H W A pred scoreThr)).length := (hlen ℝ _ _ _ _).1
      _ ≤ (nmsInputBoxesMode0 anchors H W A pred scoreThr imgH imgW).length := by
          rw [List.length_zip]; exact min_le_left _ _
      _ = (filteredBoxesMode0 anchors H W A pred scoreThr).length := List.length_map _ _
  · rw [predictMode0_unfold]
    simp only [List.length_map]
    exact (hlen ℝ _ _ _ _).2

/-- C2 counterexample: the boxes fed to NMS are not in the pre-rescaling
coordinate space.  On a concrete decode (single cell, unit anchor,
all-zero tensor, image of height and width 2) the NMS input boxes differ
from the filtered boxes, because they have already been rescaled to
image-pixel space. -/
theorem nms_input_not_prerescale :
    nmsInputBoxesMode0 [((1 : ℝ), 1)] 1 1 1 (fun _ _ _ => zeroCell []) (1 / 2) 2 2
      ≠ filteredBoxesMode0 [((1 : ℝ), 1)] 1 1 1 (fun _ _ _ => zeroCell []) (1 / 2) := by
  rw [nmsInput_allzero, filteredBoxes_allzero, decodeBox_allzero]
  simp only [List.getD_cons_zero, ne_eq, List.cons.injEq, and_true, rescaleBox,
    Box.mk.injEq, not_and]
  norm_num

/-- C2 amended: the pipeline stages run in the order geometry transform,
class-score resolution, score-threshold filtering, coordinate rescaling
to image-pixel space, and only then non-maximum suppression: the boxes
fed to NMS are the already rescaled filtered boxes, and the final boxes
are gathered from them. -/
theorem predict_stage_order (anchors : List (ℝ × ℝ)) (H W A : ℕ)
    (pred : ℕ → ℕ → ℕ → RawCell) (imgH imgW : ℕ) (iouThr scoreThr : ℝ) :
    predictMode0 anchors H W A pred imgH imgW iouThr scoreThr
      = ((nmsSelect (nmsInputBoxesMode0 anchors H W A pred scoreThr imgH imgW)
            (filteredScoresMode0 H W A pred scoreThr) 10 iouThr).map
            fun s => (nmsInputBoxesMode0 anchors H W A pred scoreThr imgH imgW).getD s.1 default,
         (nmsSelect (nmsInputBoxesMode0 anchors H W A pred scoreThr imgH imgW)
            (filteredScoresMode0 H W A pred scoreThr) 10 iouThr).map
            fun s => (filteredScoresMode0 H W A pred scoreThr).getD s.1 0,
         (nmsSelect (nmsInputBoxesMode0 anchors H W A pred scoreThr imgH imgW)
            (filteredScoresMode0 H W A pred scoreThr) 10 iouThr).map
            fun s => (((filteredClassesMode0 H W A pred scoreThr).getD s.1 0 : ℕ) : ℤ) - 1) ∧
    nmsInputBoxesMode0 anchors H W A pred scoreThr imgH imgW
      = (filteredBoxesMode0 anchors H W A pred scoreThr).map
          (rescaleBox (imgH : ℝ) (imgW : ℝ)) :=
  ⟨predictMode0_unfold anchors H W A pred imgH imgW iouThr scoreThr, rfl⟩

/-- C3 counterexample: the all-zero raw prediction tensor with score
threshold 0.5 does not yield an empty detection set: on a 1 by 1 grid
with one unit anchor the decode returns one detection (every candidate
scores exactly sigmoid 0 = 0.5, which passes the at-least-threshold
filter). -/
theorem allzero_claim_false :
    (predictMode0 [((1 : ℝ), 1)] 1 1 1 (fun _ _ _ => zeroCell []) 1 1 (1 / 2) (1 / 2)).2.1
      ≠ ([] : List ℝ) := by
  rw [predictMode0_allzero_eval]
  simp

/-- C3 amended: for the all-zero raw prediction tensor and score
threshold 0.5, the decode raises no error but returns a non-empty
detection set: on a 1 by 1 grid with one anchor, for any anchor list,
logits slice, image dimensions and IoU threshold, exactly one detection
survives, with score 0.5 and mode-0-adjusted class -1. -/
theorem allzero_yields_detection (anchors : List (ℝ × ℝ)) (L : List ℝ) (imgH imgW : ℕ)
    (iouThr : ℝ) :
    (predictMode0 anchors 1 1 1 (fun _ _ _ => zeroCell L) imgH imgW iouThr (1 / 2)).2.1
        = [1 / 2] ∧
    (predictMode0 anchors 1 1 1 (fun _ _ _ => zeroCell L) imgH imgW iouThr (1 / 2)).2.2
        = [-1] := by
  rw [predictMode0_allzero_eval]
  exact ⟨rfl, rfl⟩

end Yolo
